import Mathlib

/-!
Verification of `src/2021-IJHPCA/py-modules/memorize.py` (the `Memorize`
decorator class and its `_slugify` helper), via a shallow embedding.

Modelling conventions:
* Python values are the inductive `PyVal` (ints, strings, `None`, lists,
  tuples). Lists are unhashable; a tuple's type is hashable but hashing a
  tuple hashes its elements, so using a tuple containing a list as a dict
  key raises `TypeError`.
* The dictionary `self.cache` is an association list `Cache` with
  overwrite-on-insert semantics.
* The filesystem visible to one `Memorize` instance is `FS`: the contents
  of the single cache file at `get_cache_filename()` (`file`), the current
  modification time of the decorated function's source file (`mtime`,
  `os.path.getmtime`), and a disk condition flag `writeFails` under which
  opening/writing the cache file raises `IOError`.
* `pickle.loads` is modelled by `pickleLoads` on abstract file contents
  `FileData`: a well-formed blob written by `save_cache` parses to its
  record; an empty/truncated stream raises `EOFError`; malformed bytes
  raise `pickle.UnpicklingError`.
* Exceptions are the `Except PyErr` monad; a propagating exception carries
  the side effects performed so far, so `wrapped_f` returns a `CallResult`
  record holding the outcome together with the final state.
-/

namespace Memorize

mutual
/-- Python values, restricted to the constructors the cache exercises:
integers, strings, `None`, lists and tuples. -/
inductive PyVal where
  | int : Int → PyVal
  | str : String → PyVal
  | pynone : PyVal
  | list : PyList → PyVal
  | tuple : PyList → PyVal
  deriving DecidableEq, Repr

/-- A sequence of Python values (the elements of a list or tuple). -/
inductive PyList where
  | nil : PyList
  | cons : PyVal → PyList → PyList
  deriving DecidableEq, Repr
end

/-- `isinstance(x, collections.Hashable)`: a *type-level* check — true iff
`type(x).__hash__` is not `None`. Crucially, `tuple` defines `__hash__`,
so every tuple passes this check regardless of its elements. -/
def isinstanceHashable : PyVal → Bool
  | .list _ => false
  | _ => true

mutual
/-- Whether `hash(v)` succeeds: computing a tuple's hash recursively hashes
its elements, so a tuple containing a list raises `TypeError`. -/
def hashOk : PyVal → Bool
  | .int _ => true
  | .str _ => true
  | .pynone => true
  | .list _ => false
  | .tuple es => hashOkSeq es

/-- `hashOk` on each element of a sequence. -/
def hashOkSeq : PyList → Bool
  | .nil => true
  | .cons e es => hashOk e && hashOkSeq es
end

/-- The in-memory dictionary `self.cache`: association list from key
(the argument tuple) to stored value. -/
abbrev Cache := List (PyVal × PyVal)

/-- Dictionary lookup (`self.cache[args]` / `args in self.cache`). -/
def lookupC : Cache → PyVal → Option PyVal
  | [], _ => none
  | (k, v) :: rest, key => if k = key then some v else lookupC rest key

/-- Dictionary update `self.cache[args] = value`: overwrite an existing
binding in place, otherwise append a new one. -/
def insertC : Cache → PyVal → PyVal → Cache
  | [], key, v => [(key, v)]
  | (k, w) :: rest, key, v =>
      if k = key then (key, v) :: rest else (k, w) :: insertC rest key v

/-- Python exceptions distinguished by the code paths under study. -/
inductive PyErr where
  | eofError
  | unpicklingError
  | typeError
  | ioError
  | userError : PyVal → PyErr
  deriving DecidableEq, Repr

/-- Contents of the cache file: a well-formed pickle blob as written by
`save_cache` (a dict with keys `timestamp` and `cache`), or corrupt bytes
(empty/truncated, or malformed). -/
inductive FileData where
  | wellFormed : Int → Cache → FileData
  | truncated
  | malformed
  deriving DecidableEq, Repr

/-- `pickle.loads` on the file contents: an empty or truncated stream
raises `EOFError` ("Ran out of input"); malformed bytes raise
`pickle.UnpicklingError`. -/
def pickleLoads : FileData → Except PyErr (Int × Cache)
  | .wellFormed t c => .ok (t, c)
  | .truncated => .error .eofError
  | .malformed => .error .unpicklingError

/-- Filesystem state as seen by one `Memorize` instance. -/
structure FS where
  file : Option FileData
  mtime : Int
  writeFails : Bool
  deriving DecidableEq, Repr

/-- Mutable attributes of the `Memorize` instance: `self.cache` (`None`
until loaded) and `self.timestamp` (unset until `read_cache` assigns it). -/
structure MemState where
  cache : Option Cache
  timestamp : Option Int
  deriving DecidableEq, Repr

/-- `Memorize.cache_exists`: `os.path.isfile(self.get_cache_filename())`. -/
def cache_exists (fs : FS) : Bool :=
  fs.file.isSome

/-- `Memorize.get_last_update`: `os.path.getmtime(self.parent_filepath)`. -/
def get_last_update (fs : FS) : Int :=
  fs.mtime

/-- `Memorize.is_safe_cache`, with `self.timestamp = t`:
`if self.get_last_update() > self.timestamp: return False; return True`. -/
def is_safe_cache (fs : FS) (t : Int) : Bool :=
  if get_last_update fs > t then false else true

/-- `Memorize.read_cache`: open the cache file and `pickle.loads` its
bytes, then assign `self.timestamp` and `self.cache`. A missing file makes
`open` raise `IOError`; a failing `pickle.loads` raises before either
attribute is assigned. -/
def read_cache (fs : FS) (s : MemState) : Except PyErr MemState :=
  match fs.file with
  | none => .error .ioError
  | some fd =>
      match pickleLoads fd with
      | .error e => .error e
      | .ok (t, c) => .ok { s with timestamp := some t, cache := some c }

/-- `Memorize.check_cache`: if `self.cache is None`, load it — on a missing
file initialize `{}`; `try: read_cache() except EOFError: cache = {}`;
on a successful read, discard to `{}` unless `is_safe_cache()`. Exceptions
other than `EOFError` propagate (with `self.cache` still unset). -/
def check_cache (fs : FS) (s : MemState) : Except PyErr MemState :=
  match s.cache with
  | some _ => .ok s
  | none =>
      if cache_exists fs then
        match fs.file with
        | none => .ok { s with cache := some [] }
        | some fd =>
            match pickleLoads fd with
            | .error .eofError => .ok { s with cache := some [] }
            | .error e => .error e
            | .ok (t, c) =>
                let s' : MemState := { s with timestamp := some t, cache := some c }
                if is_safe_cache fs t then .ok s'
                else .ok { s' with cache := some [] }
      else .ok { s with cache := some [] }

/-- `Memorize.save_cache`: open the cache file for writing (truncating) and
write the pickled record `{timestamp: get_last_update(), cache: self.cache}`.
Under the `writeFails` disk condition the open/write raises `IOError`;
nothing catches it. -/
def save_cache (fs : FS) (m : Cache) : Except PyErr FS :=
  if fs.writeFails then .error .ioError
  else .ok { fs with file := some (.wellFormed (get_last_update fs) m) }

deriving instance DecidableEq for Except

/-- Outcome of one call of `wrapped_f`: the returned value or propagating
exception, together with the final instance state, the final filesystem,
and how many times the underlying function ran during the call. -/
structure CallResult where
  result : Except PyErr PyVal
  state : MemState
  fs : FS
  calls : Nat
  deriving DecidableEq, Repr

/-- The closure `wrapped_f(*args)` produced by `Memorize.__call__`:
`check_cache()`; `if not isinstance(args, collections.Hashable)` call the
function directly; `if args in self.cache` return the stored value;
otherwise compute, store, `save_cache()`, and return. The membership test
`args in self.cache` hashes `args` and raises `TypeError` when the tuple
holds an unhashable element (a `self.cache` still `None` would likewise
raise `TypeError`); an exception propagating out of any step carries the
state mutated so far. -/
def wrapped_f (func : PyList → Except PyErr PyVal) (fs : FS) (s : MemState)
    (args : PyList) : CallResult :=
  match check_cache fs s with
  | .error e => ⟨.error e, s, fs, 0⟩
  | .ok s1 =>
      if isinstanceHashable (.tuple args) = false then
        match func args with
        | .ok v => ⟨.ok v, s1, fs, 1⟩
        | .error e => ⟨.error e, s1, fs, 1⟩
      else
        match s1.cache with
        | none => ⟨.error .typeError, s1, fs, 0⟩
        | some m =>
            if hashOk (.tuple args) = false then ⟨.error .typeError, s1, fs, 0⟩
            else
              match lookupC m (.tuple args) with
              | some v => ⟨.ok v, s1, fs, 0⟩
              | none =>
                  match func args with
                  | .error e => ⟨.error e, s1, fs, 1⟩
                  | .ok v =>
                      let m' := insertC m (.tuple args) v
                      let s2 : MemState := { s1 with cache := some m' }
                      match save_cache fs m' with
                      | .error e => ⟨.error e, s2, fs, 1⟩
                      | .ok fs' => ⟨.ok v, s2, fs', 1⟩

/-- Calling the wrapper through Python's call protocol. The closure is
declared `def wrapped_f(*args)`: positional arguments of any arity are
collected into the tuple `args`, and a call supplying any keyword argument
fails argument binding with `TypeError` before the body — and hence any
cache interaction — runs. -/
def wrapped_f_call (func : PyList → Except PyErr PyVal) (fs : FS)
    (s : MemState) (pos : PyList) (kwargs : List (String × PyVal)) : CallResult :=
  match kwargs with
  | [] => wrapped_f func fs s pos
  | _ :: _ => ⟨.error .typeError, s, fs, 0⟩

/-- Python `\s` over the ASCII text the encode step produces — also the
characters `str.strip()` strips. -/
def isPySpace (c : Char) : Bool :=
  c = ' ' || c = '\t' || c = '\n' || c = '\r' || c = '\x0b' || c = '\x0c'

/-- Python `\w` over ASCII text: letters, digits, underscore. -/
def isWordChar (c : Char) : Bool :=
  c.isAlphanum || c = '_'

/-- The characters kept by `re.sub(r'[^\w\s-]', '', value)`. -/
def isKeep (c : Char) : Bool :=
  isWordChar c || isPySpace c || c = '-'

/-- `unicodedata.normalize('NFKD', six.u(value)).encode('ascii', 'ignore')`
followed by `.decode('utf-8', 'ignore')`: NFKD is the identity on ASCII
text and the `ascii`/`ignore` encode drops every non-ASCII character.
(NFKD decomposition of non-ASCII characters is not modelled; the inputs of
interest are ASCII.) -/
def asciiEncode (l : List Char) : List Char :=
  l.filter (fun c => c.toNat < 128)

/-- `str.strip()`: remove leading and trailing whitespace. -/
def pyStrip (l : List Char) : List Char :=
  ((l.dropWhile isPySpace).reverse.dropWhile isPySpace).reverse

/-- A character matched by the regex class `[-\s]`. -/
def isDashOrSpace (c : Char) : Bool :=
  c = '-' || isPySpace c

/-- Remove a single leading hyphen, if present. -/
def dropDash : List Char → List Char
  | [] => []
  | c :: t => if c = '-' then t else c :: t

/-- `re.sub(r'[-\s]+', '-', value)`: each maximal run of hyphens and
whitespace characters is replaced by a single hyphen. A character opening
or extending a run contributes the run's single `-`, absorbing the one
the rest of the run already produced; `collapse_run` below checks this
against the maximal-run reading of the regex. -/
def collapse : List Char → List Char
  | [] => []
  | c :: rest =>
      if isDashOrSpace c then '-' :: dropDash (collapse rest)
      else c :: collapse rest

/-- `self.parent_filename.replace('.py', '')`: a left-to-right scan
deleting every non-overlapping occurrence of the three-character pattern
`.py` — anywhere in the name, not only a final extension. -/
def removeDotPy : List Char → List Char
  | '.' :: 'p' :: 'y' :: rest => removeDotPy rest
  | c :: rest => c :: removeDotPy rest
  | [] => []

/-- `_slugify`: encode to ASCII dropping what does not fit, delete the
characters outside `[\w\s-]`, strip surrounding whitespace, lowercase,
then collapse runs of `[-\s]` into single hyphens — in exactly the order
the source performs these steps. -/
def _slugify (value : String) : String :=
  let v1 := (asciiEncode value.toList).filter isKeep
  let v2 := (pyStrip v1).map Char.toLower
  ⟨collapse v2⟩

/-- `Memorize.get_cache_filename`:
`os.path.join(self.folder, filename + '_' + funcname + '.cache')` with
`filename = _slugify(self.parent_filename.replace('.py', ''))` — note that
`str.replace` removes *every* occurrence of `.py`, not just a final
extension. `os.path.join` of a directory and a relative component is
modelled as concatenation with one separator. -/
def get_cache_filename (folder parent_filename name : String) : String :=
  folder ++ "/" ++ _slugify ⟨removeDotPy parent_filename.toList⟩ ++ "_" ++
    _slugify name ++ ".cache"

/-- Remove leading and trailing hyphens and whitespace. -/
def trimHyphenSpace (l : List Char) : List Char :=
  ((l.dropWhile isDashOrSpace).reverse.dropWhile isDashOrSpace).reverse

/-- Slugification exactly as the specification sentence describes it:
Unicode-normalize, strip accents, lowercase, remove characters outside
word-characters/whitespace/hyphen, collapse runs of whitespace/hyphen into
a single hyphen, and trim leading/trailing hyphens/whitespace. -/
def slugify_spec (value : String) : String :=
  ⟨trimHyphenSpace (collapse
    (((asciiEncode value.toList).map Char.toLower).filter isKeep))⟩

/-- `filename` minus its (final) extension: drop everything from the last
dot on; a dot-free name is unchanged. -/
def dropExtension (s : String) : String :=
  let r := s.toList.reverse
  if r.contains '.' then ⟨((r.dropWhile (· ≠ '.')).drop 1).reverse⟩
  else s

/-- The cache-file path exactly as the specification claims it:
`<cache_dir>/<slug(filename minus its extension)>_<slug(funcname)>.cache`
with the spec's slugification. -/
def get_cache_filename_spec (folder parent_filename name : String) : String :=
  folder ++ "/" ++ slugify_spec (dropExtension parent_filename) ++ "_" ++
    slugify_spec name ++ ".cache"

/-- Run-collapsing written as a single scan with an in-run flag: a
hyphen/whitespace character emits `-` when it opens a run and nothing when
it extends one. -/
def collapseRun : Bool → List Char → List Char
  | _, [] => []
  | inRun, c :: rest =>
      if isDashOrSpace c then
        if inRun then collapseRun true rest else '-' :: collapseRun true rest
      else c :: collapseRun false rest

/-- Slugification as the amended claim describes it: encode to ASCII
(dropping what does not fit), remove characters outside
word-characters/whitespace/hyphen, trim leading/trailing whitespace (only
whitespace — hyphens are kept), lowercase, and collapse each run of
whitespace/hyphen into a single hyphen. -/
def slugify_amended (value : String) : String :=
  ⟨collapseRun false
    ((pyStrip ((asciiEncode value.toList).filter isKeep)).map Char.toLower)⟩

/-- The cache-file path as the amended claim states it:
`<cache_dir>/<slug(filename with every occurrence of ".py" removed)>_<slug(funcname)>.cache`
with the amended slugification. -/
def get_cache_filename_amended (folder parent_filename name : String) : String :=
  folder ++ "/" ++ slugify_amended ⟨removeDotPy parent_filename.toList⟩ ++ "_" ++
    slugify_amended name ++ ".cache"

/-- A total underlying function lifted into the exception monad: it always
returns normally. -/
def pureFunc (f : PyList → PyVal) : PyList → Except PyErr PyVal :=
  fun a => .ok (f a)

/-- A character that is not hyphen/whitespace is, in particular, not a
hyphen. -/
theorem ne_dash_of_not_isDashOrSpace {c : Char}
    (h : ¬isDashOrSpace c = true) : ¬c = '-' := by
  intro hc
  exact h (by simp [isDashOrSpace, hc])

/-- Dropping the leading run before collapsing equals collapsing and then
removing the single hyphen that run produced. -/
theorem collapse_dropWhile (l : List Char) :
    collapse (l.dropWhile isDashOrSpace) = dropDash (collapse l) := by
  induction l with
  | nil => rfl
  | cons c rest ih =>
      by_cases h : isDashOrSpace c = true
      · simp [List.dropWhile_cons, h, collapse, dropDash, ih]
      · simp [List.dropWhile_cons, h, collapse, dropDash,
          ne_dash_of_not_isDashOrSpace h]

/-- `collapse` realizes the regex substitution `[-\s]+ ↦ -`: at a
hyphen/whitespace character it emits one hyphen and resumes after the
maximal run. -/
theorem collapse_run (c : Char) (rest : List Char)
    (h : isDashOrSpace c = true) :
    collapse (c :: rest) = '-' :: collapse (rest.dropWhile isDashOrSpace) := by
  simp [collapse, h, collapse_dropWhile]

/-- The flag-scan collapse agrees with the source's regex substitution:
with the flag down it equals `collapse`, with the flag up it equals
`collapse` with the leading run's hyphen suppressed. -/
theorem collapseRun_eq_collapse (l : List Char) :
    collapseRun false l = collapse l ∧
      collapseRun true l = dropDash (collapse l) := by
  induction l with
  | nil => exact ⟨rfl, rfl⟩
  | cons c rest ih =>
      by_cases h : isDashOrSpace c = true
      · simp [collapseRun, collapse, h, ih.2, dropDash]
      · simp [collapseRun, collapse, h, ih.1, dropDash,
          ne_dash_of_not_isDashOrSpace h]

/-- Looking up the key just inserted returns the inserted value. -/
theorem lookupC_insertC_self (m : Cache) (k v : PyVal) :
    lookupC (insertC m k v) k = some v := by
  induction m with
  | nil => simp [insertC, lookupC]
  | cons p rest ih =>
      obtain ⟨k', w⟩ := p
      by_cases h : k' = k <;> simp [insertC, lookupC, h, ih]

/-- With `self.cache` already loaded, `check_cache` returns the state
unchanged. -/
theorem check_cache_loaded (fs : FS) (s : MemState) (m : Cache)
    (h : s.cache = some m) : check_cache fs s = .ok s := by
  simp [check_cache, h]

/-- Hit path of `wrapped_f`: a loaded store containing the key returns the
stored value with no underlying invocation and no state change. -/
theorem wrapped_f_hit (g : PyList → Except PyErr PyVal) (fs : FS)
    (s s1 : MemState) (m : Cache) (args : PyList) (v : PyVal)
    (hload : check_cache fs s = .ok s1) (hcache : s1.cache = some m)
    (hhash : hashOk (.tuple args) = true)
    (hhit : lookupC m (.tuple args) = some v) :
    wrapped_f g fs s args = ⟨.ok v, s1, fs, 0⟩ := by
  simp [wrapped_f, hload, hcache, hhash, hhit, isinstanceHashable]

/-- Miss path of `wrapped_f` with a successful write: compute, insert,
persist, return. -/
theorem wrapped_f_miss_ok (g : PyList → Except PyErr PyVal) (fs : FS)
    (s s1 : MemState) (m : Cache) (args : PyList) (v : PyVal)
    (hload : check_cache fs s = .ok s1) (hcache : s1.cache = some m)
    (hhash : hashOk (.tuple args) = true)
    (hmiss : lookupC m (.tuple args) = none)
    (hok : g args = .ok v)
    (hwrite : fs.writeFails = false) :
    wrapped_f g fs s args =
      ⟨.ok v, { s1 with cache := some (insertC m (.tuple args) v) },
        { fs with file := some (.wellFormed fs.mtime (insertC m (.tuple args) v)) },
        1⟩ := by
  simp [wrapped_f, hload, hcache, hhash, hmiss, hok, isinstanceHashable,
    save_cache, get_last_update, hwrite]

/-- Miss path of `wrapped_f` with a failing write: the value is computed
and inserted in memory, then `save_cache` raises `IOError`, which
propagates with the file untouched. -/
theorem wrapped_f_miss_ioError (g : PyList → Except PyErr PyVal) (fs : FS)
    (s s1 : MemState) (m : Cache) (args : PyList) (v : PyVal)
    (hload : check_cache fs s = .ok s1) (hcache : s1.cache = some m)
    (hhash : hashOk (.tuple args) = true)
    (hmiss : lookupC m (.tuple args) = none)
    (hok : g args = .ok v)
    (hwrite : fs.writeFails = true) :
    wrapped_f g fs s args =
      ⟨.error .ioError, { s1 with cache := some (insertC m (.tuple args) v) },
        fs, 1⟩ := by
  simp [wrapped_f, hload, hcache, hhash, hmiss, hok, isinstanceHashable,
    save_cache, get_last_update, hwrite]

/-- Miss path of `wrapped_f` when the underlying function raises: the
exception propagates as is, before any insertion or write. -/
theorem wrapped_f_func_error (g : PyList → Except PyErr PyVal) (fs : FS)
    (s s1 : MemState) (m : Cache) (args : PyList) (e : PyErr)
    (hload : check_cache fs s = .ok s1) (hcache : s1.cache = some m)
    (hhash : hashOk (.tuple args) = true)
    (hmiss : lookupC m (.tuple args) = none)
    (herr : g args = .error e) :
    wrapped_f g fs s args = ⟨.error e, s1, fs, 1⟩ := by
  simp [wrapped_f, hload, hcache, hhash, hmiss, herr, isinstanceHashable]

/-- C7: `check_cache` is idempotent — once `self.cache` is loaded
(non-`None`), a further call returns normally and leaves the instance
state exactly as it was (and, reading only, it never touches the on-disk
file). -/
theorem C7_check_cache_idempotent (fs : FS) (s : MemState) (m : Cache)
    (h : s.cache = some m) : check_cache fs s = .ok s := by
  simp [check_cache, h]

/-- Witness for C7: a concrete loaded state is left untouched. -/
theorem C7_check_cache_idempotent_witness :
    (⟨some [(.pynone, .int 1)], some 3⟩ : MemState).cache
        = some [(.pynone, .int 1)] ∧
      check_cache ⟨none, 0, false⟩ ⟨some [(.pynone, .int 1)], some 3⟩
        = .ok ⟨some [(.pynone, .int 1)], some 3⟩ :=
  ⟨rfl, C7_check_cache_idempotent ⟨none, 0, false⟩
    ⟨some [(.pynone, .int 1)], some 3⟩ [(.pynone, .int 1)] rfl⟩

/-- C10 counterexample: the claimed invariant fails on the corrupt-file
branch — at a malformed cache file `check_cache` propagates
`UnpicklingError` rather than returning, and the wrapped call's instance
state still has `self.cache = None` when the exception surfaces, so not
every branch leaves the cache bound to a dictionary. -/
theorem C10_counterexample :
    check_cache ⟨some .malformed, 0, false⟩ ⟨none, none⟩ =
        .error .unpicklingError ∧
      (wrapped_f (pureFunc fun _ => .int 0) ⟨some .malformed, 0, false⟩
          ⟨none, none⟩ (.cons (.int 4) .nil)).state.cache = none := by
  constructor <;> decide

/-- C10 (amended): whenever `check_cache` returns normally, `self.cache`
is bound to a dictionary — the missing-file, truncated-file (`EOFError`),
stale-cache and successful-load branches all end with a mapping; and when
`check_cache` instead raises (a corrupt file whose deserialization error
is not `EOFError`), the wrapped call propagates that exception at once,
with the state and filesystem untouched and zero underlying invocations —
so the lookup and insert in the wrapped call never operate on an unloaded
store. -/
theorem C10_cache_loaded_after_check (fs : FS) (s s' : MemState)
    (h : check_cache fs s = .ok s') :
    (∃ m, s'.cache = some m) ∧
      ∀ (g : PyList → Except PyErr PyVal) (fs' : FS) (s0 : MemState)
        (args : PyList) (e : PyErr),
        check_cache fs' s0 = .error e →
        wrapped_f g fs' s0 args = ⟨.error e, s0, fs', 0⟩ := by
  constructor
  · unfold check_cache at h
    cases hc : s.cache with
    | some m =>
        rw [hc] at h
        exact ⟨m, by cases h; exact hc⟩
    | none =>
        rw [hc] at h
        by_cases he : cache_exists fs = true
        · rw [if_pos he] at h
          cases hf : fs.file with
          | none => rw [hf] at h; cases h; exact ⟨[], rfl⟩
          | some fd =>
              rw [hf] at h
              cases fd with
              | wellFormed t c =>
                  simp only [pickleLoads] at h
                  by_cases hs : is_safe_cache fs t = true
                  · rw [if_pos hs] at h; cases h; exact ⟨c, rfl⟩
                  · rw [if_neg hs] at h; cases h; exact ⟨[], rfl⟩
              | truncated => simp only [pickleLoads] at h; cases h; exact ⟨[], rfl⟩
              | malformed => simp only [pickleLoads] at h; cases h
        · rw [if_neg he] at h; cases h; exact ⟨[], rfl⟩
  · intro g fs' s0 args e he
    simp [wrapped_f, he]

/-- Witness for C10 (amended) at a concrete cold start with no cache file,
exercising the raising branch at a malformed file. -/
theorem C10_cache_loaded_after_check_witness :
    check_cache ⟨none, 0, false⟩ ⟨none, none⟩ = .ok ⟨some [], none⟩ ∧
      ((∃ m, (⟨some [], none⟩ : MemState).cache = some m) ∧
        ∀ (g : PyList → Except PyErr PyVal) (fs' : FS) (s0 : MemState)
          (args : PyList) (e : PyErr),
          check_cache fs' s0 = .error e →
          wrapped_f g fs' s0 args = ⟨.error e, s0, fs', 0⟩) :=
  ⟨rfl, C10_cache_loaded_after_check ⟨none, 0, false⟩ ⟨none, none⟩
    ⟨some [], none⟩ rfl⟩

/-- C9: the wrapper is declared `def wrapped_f(*args)`, so a call passing
any keyword argument fails Python argument binding with `TypeError` before
the body runs: the underlying function is not invoked and neither the
instance state nor the filesystem is touched. -/
theorem C9_keyword_args_rejected (func : PyList → Except PyErr PyVal)
    (fs : FS) (s : MemState) (pos : PyList) (kwargs : List (String × PyVal))
    (h : kwargs ≠ []) :
    wrapped_f_call func fs s pos kwargs = ⟨.error .typeError, s, fs, 0⟩ := by
  cases kwargs with
  | nil => exact absurd rfl h
  | cons kv rest => rfl

/-- Witness for C9: passing the keyword argument `x=1` to a concrete
wrapped call raises `TypeError` with zero underlying invocations. -/
theorem C9_keyword_args_rejected_witness :
    ([(("x" : String), PyVal.int 1)] ≠ ([] : List (String × PyVal))) ∧
      wrapped_f_call (pureFunc fun _ => .int 0) ⟨none, 0, false⟩ ⟨none, none⟩
          .nil [("x", .int 1)] =
        ⟨.error .typeError, ⟨none, none⟩, ⟨none, 0, false⟩, 0⟩ :=
  ⟨by decide, C9_keyword_args_rejected (pureFunc fun _ => .int 0)
    ⟨none, 0, false⟩ ⟨none, none⟩ .nil [("x", .int 1)] (by decide)⟩

/-- C2 (refuted — the claimed silent bypass does not happen): at the
argument tuple `([1],)`, whose sole element is an unhashable list, the
type-level guard `isinstance(args, collections.Hashable)` still passes
because `tuple` defines `__hash__`; the membership test `args in
self.cache` then hashes the tuple's elements and raises `TypeError`. The
underlying function is never called and nothing is returned, where the
claim promises a direct call with the result returned and no error. -/
theorem C2_unhashable_tuple_raises :
    isinstanceHashable (.tuple (.cons (.list (.cons (.int 1) .nil)) .nil))
        = true ∧
      hashOk (.tuple (.cons (.list (.cons (.int 1) .nil)) .nil)) = false ∧
      wrapped_f (pureFunc fun _ => .int 0) ⟨none, 0, false⟩ ⟨none, none⟩
          (.cons (.list (.cons (.int 1) .nil)) .nil) =
        ⟨.error .typeError, ⟨some [], none⟩, ⟨none, 0, false⟩, 0⟩ := by
  refine ⟨rfl, ?_, ?_⟩ <;> decide

/-- C1: for a hashable argument tuple not yet present in the loaded store,
calling the wrapped function twice invokes the underlying function exactly
once: the first call computes and stores (one invocation), the second call
is a hit that performs zero invocations and returns a value equal to the
first call's result. -/
theorem C1_hit_miss_correct (f : PyList → PyVal) (fs : FS) (s s1 : MemState)
    (m : Cache) (args : PyList)
    (hload : check_cache fs s = .ok s1) (hcache : s1.cache = some m)
    (hhash : hashOk (.tuple args) = true)
    (hmiss : lookupC m (.tuple args) = none)
    (hwrite : fs.writeFails = false) :
    (wrapped_f (pureFunc f) fs s args).calls = 1 ∧
      (wrapped_f (pureFunc f) fs s args).result = .ok (f args) ∧
      (wrapped_f (pureFunc f) (wrapped_f (pureFunc f) fs s args).fs
          (wrapped_f (pureFunc f) fs s args).state args).calls = 0 ∧
      (wrapped_f (pureFunc f) (wrapped_f (pureFunc f) fs s args).fs
          (wrapped_f (pureFunc f) fs s args).state args).result =
        (wrapped_f (pureFunc f) fs s args).result := by
  have h1 := wrapped_f_miss_ok (pureFunc f) fs s s1 m args (f args)
    hload hcache hhash hmiss rfl hwrite
  have h2 := wrapped_f_hit (pureFunc f)
    { fs with file := some (.wellFormed fs.mtime (insertC m (.tuple args) (f args))) }
    { s1 with cache := some (insertC m (.tuple args) (f args)) }
    { s1 with cache := some (insertC m (.tuple args) (f args)) }
    (insertC m (.tuple args) (f args)) args (f args)
    (check_cache_loaded _ _ _ rfl) rfl hhash
    (lookupC_insertC_self m (.tuple args) (f args))
  rw [h1]
  rw [show (⟨.ok (f args), { s1 with cache := some (insertC m (.tuple args) (f args)) },
      { fs with file := some (.wellFormed fs.mtime (insertC m (.tuple args) (f args))) },
      1⟩ : CallResult).fs =
    { fs with file := some (.wellFormed fs.mtime (insertC m (.tuple args) (f args))) } from rfl]
  rw [show (⟨.ok (f args), { s1 with cache := some (insertC m (.tuple args) (f args)) },
      { fs with file := some (.wellFormed fs.mtime (insertC m (.tuple args) (f args))) },
      1⟩ : CallResult).state =
    { s1 with cache := some (insertC m (.tuple args) (f args)) } from rfl]
  rw [h2]
  exact ⟨rfl, rfl, rfl, rfl⟩

/-- Witness for C1: memoizing the squaring function at argument `(4,)`
from a cold start with no cache file. -/
theorem C1_hit_miss_correct_witness :
    check_cache ⟨none, 0, false⟩ ⟨none, none⟩ = .ok ⟨some [], none⟩ ∧
      hashOk (.tuple (.cons (.int 4) .nil)) = true ∧
      (wrapped_f (pureFunc fun a =>
          match a with
          | .cons (.int n) .nil => .int (n * n)
          | _ => .pynone) ⟨none, 0, false⟩ ⟨none, none⟩
        (.cons (.int 4) .nil)).calls = 1 ∧
      (wrapped_f (pureFunc fun a =>
          match a with
          | .cons (.int n) .nil => .int (n * n)
          | _ => .pynone) ⟨none, 0, false⟩ ⟨none, none⟩
        (.cons (.int 4) .nil)).result = .ok (.int 16) := by
  have h := C1_hit_miss_correct (fun a =>
      match a with
      | .cons (.int n) .nil => .int (n * n)
      | _ => .pynone)
    ⟨none, 0, false⟩ ⟨none, none⟩ ⟨some [], none⟩ [] (.cons (.int 4) .nil)
    rfl rfl (by decide) rfl rfl
  exact ⟨rfl, by decide, h.1, h.2.1⟩

/-- C4: a loaded store is kept only when its saved timestamp is at least
the source file's current modification time; a stale store (`savedAt <
mtime`) is discarded to empty, so the next call even with previously
cached arguments invokes the underlying function again and returns the
freshly computed value, not the stale one. -/
theorem C4_mtime_invalidation (fs : FS) (s : MemState) (t : Int) (c : Cache)
    (hnone : s.cache = none) (hfile : fs.file = some (.wellFormed t c)) :
    (fs.mtime ≤ t →
      check_cache fs s = .ok { s with timestamp := some t, cache := some c }) ∧
    (t < fs.mtime →
      check_cache fs s = .ok { s with timestamp := some t, cache := some [] } ∧
      ∀ (f : PyList → PyVal) (args : PyList) (w : PyVal),
        hashOk (.tuple args) = true → fs.writeFails = false →
        lookupC c (.tuple args) = some w →
        (wrapped_f (pureFunc f) fs s args).calls = 1 ∧
          (wrapped_f (pureFunc f) fs s args).result = .ok (f args)) := by
  constructor
  · intro hle
    have hsafe : is_safe_cache fs t = true := by
      simp [is_safe_cache, get_last_update]
      omega
    simp [check_cache, hnone, cache_exists, hfile, pickleLoads, hsafe]
  · intro hlt
    have hsafe : is_safe_cache fs t = false := by
      simp [is_safe_cache, get_last_update]
      omega
    have hcc : check_cache fs s
        = .ok { s with timestamp := some t, cache := some [] } := by
      simp [check_cache, hnone, cache_exists, hfile, pickleLoads, hsafe]
    refine ⟨hcc, fun f args w hhash hwrite _ => ?_⟩
    have h1 := wrapped_f_miss_ok (pureFunc f) fs s
      { s with timestamp := some t, cache := some [] } [] args (f args)
      hcc rfl hhash rfl rfl hwrite
    rw [h1]
    exact ⟨rfl, rfl⟩

/-- Witness for C4: a store saved at time 3 against a source modified at
time 5 is discarded, and the call recomputes `(4,) ↦ 17` instead of
returning the stale `16`. -/
theorem C4_mtime_invalidation_witness :
    ((⟨none, none⟩ : MemState).cache = none) ∧
      ((3 : Int) < 5) ∧
      check_cache ⟨some (.wellFormed 3 [(.tuple (.cons (.int 4) .nil), .int 16)]), 5, false⟩
          ⟨none, none⟩ = .ok ⟨some [], some 3⟩ ∧
      (wrapped_f (pureFunc fun _ => .int 17)
          ⟨some (.wellFormed 3 [(.tuple (.cons (.int 4) .nil), .int 16)]), 5, false⟩
          ⟨none, none⟩ (.cons (.int 4) .nil)).calls = 1 ∧
      (wrapped_f (pureFunc fun _ => .int 17)
          ⟨some (.wellFormed 3 [(.tuple (.cons (.int 4) .nil), .int 16)]), 5, false⟩
          ⟨none, none⟩ (.cons (.int 4) .nil)).result = .ok (.int 17) := by
  have h := C4_mtime_invalidation
    ⟨some (.wellFormed 3 [(.tuple (.cons (.int 4) .nil), .int 16)]), 5, false⟩
    ⟨none, none⟩ 3 [(.tuple (.cons (.int 4) .nil), .int 16)] rfl rfl
  have h2 := h.2 (by decide)
  have h3 := h2.2 (fun _ => .int 17) (.cons (.int 4) .nil) (.int 16)
    (by decide) rfl (by decide)
  exact ⟨rfl, by decide, h2.1, h3.1, h3.2⟩

/-- C6: on a miss, the full updated store is persisted synchronously
before the call returns — the resulting file holds every entry of the
store plus the new one, stamped with the current source mtime — and when
the write fails the `IOError` propagates to the caller instead of being
swallowed. -/
theorem C6_persist_before_return (f : PyList → PyVal) (fs : FS)
    (s s1 : MemState) (m : Cache) (args : PyList)
    (hload : check_cache fs s = .ok s1) (hcache : s1.cache = some m)
    (hhash : hashOk (.tuple args) = true)
    (hmiss : lookupC m (.tuple args) = none) :
    (fs.writeFails = false →
      (wrapped_f (pureFunc f) fs s args).result = .ok (f args) ∧
        (wrapped_f (pureFunc f) fs s args).fs.file =
          some (.wellFormed fs.mtime (insertC m (.tuple args) (f args)))) ∧
    (fs.writeFails = true →
      (wrapped_f (pureFunc f) fs s args).result = .error .ioError ∧
        (wrapped_f (pureFunc f) fs s args).fs = fs) := by
  constructor
  · intro hwrite
    rw [wrapped_f_miss_ok (pureFunc f) fs s s1 m args (f args)
      hload hcache hhash hmiss rfl hwrite]
    exact ⟨rfl, rfl⟩
  · intro hwrite
    rw [wrapped_f_miss_ioError (pureFunc f) fs s s1 m args (f args)
      hload hcache hhash hmiss rfl hwrite]
    exact ⟨rfl, rfl⟩

/-- Witness for C6: on a disk refusing writes, the miss for `(4,)` raises
`IOError` to the caller. -/
theorem C6_persist_before_return_witness :
    check_cache ⟨none, 0, true⟩ ⟨none, none⟩ = .ok ⟨some [], none⟩ ∧
      (wrapped_f (pureFunc fun _ => .int 16) ⟨none, 0, true⟩ ⟨none, none⟩
          (.cons (.int 4) .nil)).result = .error .ioError := by
  have h := C6_persist_before_return (fun _ => .int 16) ⟨none, 0, true⟩
    ⟨none, none⟩ ⟨some [], none⟩ [] (.cons (.int 4) .nil)
    rfl rfl (by decide) rfl
  exact ⟨rfl, (h.2 rfl).1⟩

/-- C8: when the underlying function raises during a genuine (non-cached)
invocation, the same exception propagates out of the wrapped call, no
entry is stored (the state is exactly the post-load state `s1`, whose
store does not contain the key), and the on-disk file is untouched. -/
theorem C8_underlying_error_propagates (g : PyList → Except PyErr PyVal)
    (fs : FS) (s s1 : MemState) (m : Cache) (args : PyList) (e : PyErr)
    (hload : check_cache fs s = .ok s1) (hcache : s1.cache = some m)
    (hhash : hashOk (.tuple args) = true)
    (hmiss : lookupC m (.tuple args) = none)
    (herr : g args = .error e) :
    wrapped_f g fs s args = ⟨.error e, s1, fs, 1⟩ :=
  wrapped_f_func_error g fs s s1 m args e hload hcache hhash hmiss herr

/-- Witness for C8: a function raising `ValueError("boom")` propagates it
unmodified from a cold call, leaving no cache file behind. -/
theorem C8_underlying_error_propagates_witness :
    check_cache ⟨none, 0, false⟩ ⟨none, none⟩ = .ok ⟨some [], none⟩ ∧
      wrapped_f (fun _ => .error (.userError (.str "boom")))
          ⟨none, 0, false⟩ ⟨none, none⟩ (.cons (.int 4) .nil) =
        ⟨.error (.userError (.str "boom")), ⟨some [], none⟩,
          ⟨none, 0, false⟩, 1⟩ :=
  ⟨rfl, C8_underlying_error_propagates (fun _ => .error (.userError (.str "boom")))
    ⟨none, 0, false⟩ ⟨none, none⟩ ⟨some [], none⟩ [] (.cons (.int 4) .nil)
    (.userError (.str "boom")) rfl rfl (by decide) rfl rfl⟩

/-- C3 counterexample: a malformed (non-truncated) cache file refutes the
claim as stated — `pickle.loads` raises `UnpicklingError`, and
`check_cache` catches only `EOFError`, so the load step propagates the
error instead of initializing an empty store. -/
theorem C3_counterexample :
    check_cache ⟨some .malformed, 0, false⟩ ⟨none, none⟩ =
      .error .unpicklingError := by
  decide

/-- C3 (amended): corruption that makes deserialization raise `EOFError`
(an empty or truncated file) is recovered — the store is initialized
empty and the next call behaves as a cold cache (miss, compute, store) —
while a malformed file, whose deserialization raises `UnpicklingError`,
propagates the error out of the load step. -/
theorem C3_eof_recovery (fs : FS) (s : MemState) (f : PyList → PyVal)
    (args : PyList)
    (hnone : s.cache = none) (hfile : fs.file = some .truncated)
    (hhash : hashOk (.tuple args) = true) (hwrite : fs.writeFails = false) :
    check_cache fs s = .ok { s with cache := some [] } ∧
      (wrapped_f (pureFunc f) fs s args).calls = 1 ∧
      (wrapped_f (pureFunc f) fs s args).result = .ok (f args) ∧
      (wrapped_f (pureFunc f) fs s args).fs.file =
        some (.wellFormed fs.mtime [(.tuple args, f args)]) ∧
      (∀ (fs' : FS) (s' : MemState), s'.cache = none →
        fs'.file = some .malformed →
        check_cache fs' s' = .error .unpicklingError) := by
  have hcc : check_cache fs s = .ok { s with cache := some [] } := by
    simp [check_cache, hnone, cache_exists, hfile, pickleLoads]
  have h1 := wrapped_f_miss_ok (pureFunc f) fs s { s with cache := some [] }
    [] args (f args) hcc rfl hhash rfl rfl hwrite
  rw [h1]
  refine ⟨hcc, rfl, rfl, rfl, ?_⟩
  intro fs' s' hn hf
  simp [check_cache, hn, cache_exists, hf, pickleLoads]

/-- Witness for C3 (amended): a truncated cache file is recovered from and
the call computes and persists `(4,) ↦ 16`. -/
theorem C3_eof_recovery_witness :
    ((⟨none, none⟩ : MemState).cache = none) ∧
      ((⟨some .truncated, 0, false⟩ : FS).file = some .truncated) ∧
      check_cache ⟨some .truncated, 0, false⟩ ⟨none, none⟩ =
        .ok ⟨some [], none⟩ ∧
      (wrapped_f (pureFunc fun _ => .int 16) ⟨some .truncated, 0, false⟩
          ⟨none, none⟩ (.cons (.int 4) .nil)).result = .ok (.int 16) := by
  have h := C3_eof_recovery ⟨some .truncated, 0, false⟩ ⟨none, none⟩
    (fun _ => .int 16) (.cons (.int 4) .nil) rfl rfl (by decide) rfl
  exact ⟨rfl, rfl, h.1, h.2.2.1⟩

/-- C5 counterexample: for source file name `-a.py.py`, function name `f`
and cache directory `c`, the code removes *every* occurrence of `.py`
(not just the final extension) and keeps leading/trailing hyphens
(`strip()` strips only whitespace), producing the path with last
component `-a_f.cache`, while the formula claimed in the spec produces
`c/apy_f.cache`. -/
theorem C5_counterexample :
    get_cache_filename "c" "-a.py.py" "f" = "c/-a_f.cache" ∧
      get_cache_filename_spec "c" "-a.py.py" "f" = "c/apy_f.cache" ∧
      get_cache_filename "c" "-a.py.py" "f" ≠
        get_cache_filename_spec "c" "-a.py.py" "f" := by
  refine ⟨?_, ?_, ?_⟩ <;> decide

/-- C5 (amended): for every source filename and function name, the cache
file path is
`<cache_dir>/<slug(filename with every occurrence of ".py" removed)>_<slug(funcname)>.cache`,
where slugification normalizes to ASCII (dropping characters that do not
fit), removes characters outside word-characters/whitespace/hyphen, trims
leading and trailing whitespace (hyphens are kept), lowercases, and
collapses each run of whitespace/hyphen into a single hyphen. -/
theorem C5_amended_path (folder parent_filename name : String) :
    get_cache_filename folder parent_filename name =
      get_cache_filename_amended folder parent_filename name := by
  have hs : ∀ v : String, slugify_amended v = _slugify v := fun v =>
    congrArg String.mk (collapseRun_eq_collapse _).1
  simp [get_cache_filename, get_cache_filename_amended, hs]

end Memorize
